import Mathlib

/-!
Shallow embedding of `gemato/openpgp.py`: the process invoker `_spawn_gpg`,
the `OpenPGPEnvironment` lifecycle, and the verify / clear-sign / import
facade functions.

The operating system is modelled as an explicit oracle passed to each
operation: `OS.popen` maps a child command line and an optional child
environment (the `GNUPGHOME` dictionary) either to a launch failure,
carrying an `errno`, or to a process whose `communicate` consumes the
stdin bytes and yields the exit status together with the stdout and
stderr bytes.  Object mutation (`env_instance._impl = impl`,
`self._home = None`) becomes explicit state passing: operations return
the updated environment, and `close` returns the environment alongside
the optional propagated exception, since the source mutates the object
only after every point that can raise.
-/

set_option autoImplicit false

namespace Gemato

/-- `errno.ENOENT` (No such file or directory). -/
def ENOENT : Nat := 2

/-- Python `bytes` values, identified by the text they decode to as UTF-8:
the module only ever produces bytes via `str.encode('utf8')` and consumes
them via `bytes.decode('utf8')`, which are mutually inverse on the values
that occur. -/
structure Bytes where
  decodeUtf8 : String
deriving DecidableEq, Repr

/-- `str.encode('utf8')`. -/
def encodeUtf8 (s : String) : Bytes := ⟨s⟩

/-- Exceptions that escape the module's functions: the three
`gemato.exceptions` classes used here, `RuntimeError`, `OSError`
(identified by its `errno`), and any other propagated exception. -/
inductive GematoError where
  | openPGPNoImplementation
  | openPGPVerificationFailure (msg : String)
  | openPGPSigningFailure (msg : String)
  | runtimeError (msg : String)
  | osError (errno : Nat)
  | otherError (msg : String)
deriving DecidableEq, Repr

/-- A successfully launched child process: `communicate` writes the stdin
bytes, drains the pipes and (with `wait`) reports
`(exit status, stdout, stderr)`. -/
structure Proc where
  communicate : Bytes → Int × Bytes × Bytes

/-- The operating-system oracle for `subprocess.Popen`: given the argv list
and the optional replacement environment (`env=` keyword), either an
`OSError` errno or a launched process. -/
structure OS where
  popen : List String → Option (List (String × String)) → Except Nat Proc

/-- `OpenPGPEnvironment.__slots__ = ['_home', '_impl']`.  `_home` is `None`
once closed; `_impl` is `None` until an implementation is resolved. -/
structure OpenPGPEnvironment where
  _home : Option String
  _impl : Option String
deriving DecidableEq, Repr

/-- `OpenPGPEnvironment.__init__`: `tempfile.mkdtemp()` yields the fresh
private directory `tmpdir`; no implementation is resolved yet. -/
def OpenPGPEnvironment.init (tmpdir : String) : OpenPGPEnvironment :=
  { _home := some tmpdir, _impl := none }

/-- The `home` property: raises `RuntimeError` after `close()`. -/
def OpenPGPEnvironment.home (e : OpenPGPEnvironment) : Except GematoError String :=
  match e._home with
  | none => .error (.runtimeError "OpenPGPEnvironment has been closed")
  | some h => .ok h

/-- The `env` dictionary built at the top of `_spawn_gpg`:
`None`, or `{'GNUPGHOME': env_instance.home}` (reading `home` may raise). -/
def childEnvOf : Option OpenPGPEnvironment → Except GematoError (Option (List (String × String)))
  | none => .ok none
  | some ei => do
    let h ← ei.home
    pure (some [("GNUPGHOME", h)])

/-- The candidate list `impls` of `_spawn_gpg`: `['gpg2', 'gpg']`, replaced
by the cached single implementation when the environment has one. -/
def implCandidates : Option OpenPGPEnvironment → List String
  | none => ["gpg2", "gpg"]
  | some ei =>
    match ei._impl with
    | none => ["gpg2", "gpg"]
    | some impl => [impl]

/-- The `for impl in impls: ... else: raise OpenPGPNoImplementation()` loop
of `_spawn_gpg`: try `Popen([impl, '--batch'] + options, env=env)` for each
candidate; an `OSError` other than `ENOENT` is re-raised, `ENOENT` moves on
to the next candidate, and exhausting the list raises
`OpenPGPNoImplementation`. -/
def tryImpls (os : OS) (options : List String) (env : Option (List (String × String))) :
    List String → Except GematoError (String × Proc)
  | [] => .error .openPGPNoImplementation
  | impl :: rest =>
    match os.popen (impl :: "--batch" :: options) env with
    | .error e => if e ≠ ENOENT then .error (.osError e) else tryImpls os options env rest
    | .ok p => .ok (impl, p)

/-- `_spawn_gpg(options, env_instance, stdin)`.  Returns the (possibly
updated) environment instance together with `(p.wait(), out, err)`. -/
def _spawn_gpg (os : OS) (options : List String) (env_instance : Option OpenPGPEnvironment)
    (stdin : Bytes) :
    Except GematoError (Option OpenPGPEnvironment × Int × Bytes × Bytes) := do
  let env ← childEnvOf env_instance
  let impls := implCandidates env_instance
  let (impl, p) ← tryImpls os options env impls
  let env_instance := env_instance.map fun ei => { ei with _impl := some impl }
  let (exitst, out, err) := p.communicate stdin
  pure (env_instance, exitst, out, err)

/-- `verify_file(f, env=None)`: `f` is the full text read from the open
file.  Returns the updated environment on success. -/
def verify_file (os : OS) (f : String) (env : Option OpenPGPEnvironment) :
    Except GematoError (Option OpenPGPEnvironment) := do
  let (env, exitst, _out, err) ← _spawn_gpg os ["--verify"] env (encodeUtf8 f)
  if exitst ≠ 0 then
    throw (.openPGPVerificationFailure err.decodeUtf8)
  pure env

/-- `clear_sign_file(f, outf, keyid=None, env=None)`: `f` is the full text
read from the open input file; on success the second component is the
decoded stdout written in full to `outf` (on failure nothing is written,
hence no component). -/
def clear_sign_file (os : OS) (f : String) (keyid : Option String)
    (env : Option OpenPGPEnvironment) :
    Except GematoError (Option OpenPGPEnvironment × String) := do
  let args := match keyid with
    | none => []
    | some k => ["--local-user", k]
  let (env, exitst, out, err) ← _spawn_gpg os ("--clearsign" :: args) env (encodeUtf8 f)
  if exitst ≠ 0 then
    throw (.openPGPSigningFailure err.decodeUtf8)
  pure (env, out.decodeUtf8)

/-- `OpenPGPEnvironment.import_key(keyfile)`: `keyfile` is the bytes read
from the open binary file. -/
def OpenPGPEnvironment.import_key (os : OS) (e : OpenPGPEnvironment) (keyfile : Bytes) :
    Except GematoError (Option OpenPGPEnvironment) := do
  let (env, exitst, _out, err) ← _spawn_gpg os ["--import"] (some e) keyfile
  if exitst ≠ 0 then
    throw (.runtimeError ("Unable to import key: " ++ err.decodeUtf8))
  pure env

/-- An exception handed to the `shutil.rmtree` `onerror` callback: an
`OSError` with its errno, or any other exception. -/
inductive PyExc where
  | osError (errno : Nat)
  | otherExc (msg : String)
deriving DecidableEq, Repr

/-- The teardown side of the operating-system oracle:
`gpgconfKill home` models `Popen(['gpgconf', '--kill', 'all'],
env={'GNUPGHOME': home}).wait()` (launch errno or exit status), and
`rmtree home` models `shutil.rmtree(home, ...)` as the sequence of
exceptions it hands to the `onerror` callback, in order. -/
structure CloseOS where
  gpgconfKill : String → Except Nat Int
  rmtree : String → List PyExc

/-- `OpenPGPEnvironment._rmtree_error_handler` folded over the failures
`shutil.rmtree` reports: the first exception that is not an `OSError` with
`errno == ENOENT` is re-raised (returned); tolerated ones are ignored. -/
def rmtreeErrorHandler : List PyExc → Option GematoError
  | [] => none
  | exc :: rest =>
    match exc with
    | .osError errno =>
      if errno ≠ ENOENT then some (.osError errno) else rmtreeErrorHandler rest
    | .otherExc m => some (.otherError m)

/-- The `if self._impl is not None: try: Popen(['gpgconf', '--kill',
'all'], ...).wait() except OSError ...` block of `close`: skipped when no
implementation was resolved; an `ENOENT` launch failure is tolerated, any
other launch errno re-raised; a successful launch's exit status is
discarded. -/
def agentKillStep (os : CloseOS) (impl : Option String) (home : String) :
    Option GematoError :=
  match impl with
  | none => none
  | some _ =>
    match os.gpgconfKill home with
    | .error errno => if errno ≠ ENOENT then some (.osError errno) else none
    | .ok _ => none

/-- The tail of `close` after a tolerated (or absent) agent-kill step:
`shutil.rmtree(self._home, onerror=self._rmtree_error_handler)` followed
by `self._home = None`; the environment is marked closed only when every
removal failure was tolerated. -/
def rmtreePhase (os : CloseOS) (e : OpenPGPEnvironment) (home : String) :
    Option GematoError × OpenPGPEnvironment :=
  match rmtreeErrorHandler (os.rmtree home) with
  | some err => (some err, e)
  | none => (none, { e with _home := none })

/-- `OpenPGPEnvironment.close()`.  The first component is the propagated
exception, if any; the second is the object state afterwards.  The source
assigns `self._home = None` only after `shutil.rmtree` returns, and never
assigns `self._impl`, so on an exception the state is returned unchanged. -/
def OpenPGPEnvironment.close (os : CloseOS) (e : OpenPGPEnvironment) :
    Option GematoError × OpenPGPEnvironment :=
  match e._home with
  | none => (none, e)
  | some home =>
    match agentKillStep os e._impl home with
    | some err => (some err, e)
    | none => rmtreePhase os e home

/-! ### Concrete fixtures used by the witness theorems -/

/-- `errno.EACCES` (Permission denied), a representative non-`ENOENT` errno. -/
def EACCES : Nat := 13

/-- An operating system on which launching any executable fails with `ENOENT`. -/
def osAllMissing : OS where
  popen := fun _ _ => .error ENOENT

/-- An operating system on which launching `gpg2` fails with `EACCES` and
launching anything else fails with `ENOENT`. -/
def osFirstDenied : OS where
  popen := fun argv _ =>
    match argv with
    | "gpg2" :: _ => .error EACCES
    | _ => .error ENOENT

/-- A process that ignores its stdin and reports a fixed exit status,
stdout and stderr. -/
def procConst (exitst : Int) (out err : String) : Proc where
  communicate := fun _ => (exitst, ⟨out⟩, ⟨err⟩)

/-- An operating system on which every launch succeeds with a fixed
process. -/
def osConst (exitst : Int) (out err : String) : OS where
  popen := fun _ _ => .ok (procConst exitst out err)

/-- An operating system on which only `gpg` (not `gpg2`) launches,
succeeding with a fixed process. -/
def osOnlyGpg (exitst : Int) (out err : String) : OS where
  popen := fun argv _ =>
    match argv with
    | "gpg" :: _ => .ok (procConst exitst out err)
    | _ => .error ENOENT

/-- A teardown oracle with a prescribed agent-kill outcome and `rmtree`
failure list. -/
def closeOSConst (kill : Except Nat Int) (excs : List PyExc) : CloseOS where
  gpgconfKill := fun _ => kill
  rmtree := fun _ => excs

/-- An operating system on which `gpg2` is missing, `gpg` launches, and
every other executable fails with errno 3. -/
def osAgreeA : OS where
  popen := fun argv _ =>
    match argv with
    | "gpg2" :: _ => .error ENOENT
    | "gpg" :: _ => .ok (procConst 0 "A" "")
    | _ => .error 3

/-- Like `osAgreeA`, but every executable other than `gpg2` and `gpg`
fails with errno 4: the two oracles agree exactly on the candidate
command lines. -/
def osAgreeB : OS where
  popen := fun argv _ =>
    match argv with
    | "gpg2" :: _ => .error ENOENT
    | "gpg" :: _ => .ok (procConst 0 "A" "")
    | _ => .error 4

/-! ### Helper lemmas -/

/-- The candidate loop only consults the oracle at command lines
`impl :: "--batch" :: options` for candidates `impl`, all with the same
child environment. -/
theorem tryImpls_congr (os1 os2 : OS) (options : List String)
    (env : Option (List (String × String))) (impls : List String)
    (h : ∀ impl ∈ impls, os1.popen (impl :: "--batch" :: options) env
        = os2.popen (impl :: "--batch" :: options) env) :
    tryImpls os1 options env impls = tryImpls os2 options env impls := by
  induction impls with
  | nil => rfl
  | cons impl rest ih =>
    have h1 := h impl (by simp)
    have hrest : ∀ i ∈ rest, os1.popen (i :: "--batch" :: options) env
        = os2.popen (i :: "--batch" :: options) env :=
      fun i hi => h i (by simp [hi])
    simp only [tryImpls, h1]
    cases os2.popen (impl :: "--batch" :: options) env with
    | error e =>
      by_cases he : e ≠ ENOENT <;> simp [he, ih hrest]
    | ok p => rfl

/-- A successful candidate loop returns the first candidate that launches:
every earlier candidate failed with `ENOENT` and the returned one
launched. -/
theorem tryImpls_ok_first (os : OS) (options : List String)
    (env : Option (List (String × String))) (impls : List String)
    (impl : String) (p : Proc)
    (h : tryImpls os options env impls = .ok (impl, p)) :
    ∃ pre post, impls = pre ++ impl :: post ∧
      (∀ c ∈ pre, os.popen (c :: "--batch" :: options) env = .error ENOENT) ∧
      os.popen (impl :: "--batch" :: options) env = .ok p := by
  induction impls with
  | nil => simp [tryImpls] at h
  | cons c rest ih =>
    rw [tryImpls] at h
    cases hc : os.popen (c :: "--batch" :: options) env with
    | ok q =>
      rw [hc] at h
      dsimp only at h
      injection h with h'
      rw [Prod.mk.injEq] at h'
      obtain ⟨rfl, rfl⟩ := h'
      exact ⟨[], rest, rfl, by simp, hc⟩
    | error e =>
      rw [hc] at h
      dsimp only at h
      by_cases he : e ≠ ENOENT
      · simp [he] at h
      · rw [if_neg he] at h
        push_neg at he
        obtain ⟨pre, post, hsplit, hpre, himpl⟩ := ih h
        subst he
        refine ⟨c :: pre, post, by rw [hsplit, List.cons_append], ?_, himpl⟩
        intro x hx
        rcases List.mem_cons.mp hx with rfl | hx
        · exact hc
        · exact hpre x hx

/-- Unfolding of `_spawn_gpg` once the child environment is known to be
computed without raising. -/
theorem spawn_gpg_eq (os : OS) (options : List String)
    (env_instance : Option OpenPGPEnvironment) (stdin : Bytes)
    (envArg : Option (List (String × String)))
    (henv : childEnvOf env_instance = .ok envArg) :
    _spawn_gpg os options env_instance stdin =
      match tryImpls os options envArg (implCandidates env_instance) with
      | .error err => .error err
      | .ok (impl, p) =>
        .ok (env_instance.map (fun ei => { ei with _impl := some impl }),
             p.communicate stdin) := by
  unfold _spawn_gpg
  rw [henv]
  cases htry : tryImpls os options envArg (implCandidates env_instance) with
  | error err => simp [htry, Bind.bind, Except.bind, Functor.map, Except.map]
  | ok r =>
    obtain ⟨impl, p⟩ := r
    simp [htry, Bind.bind, Except.bind, Functor.map, Except.map, Pure.pure, Except.pure,
      Proc.communicate]

/-- `_spawn_gpg` on a closed environment raises the closed-environment
`RuntimeError` while computing the child environment, for every oracle. -/
theorem spawn_gpg_closed (os : OS) (options : List String)
    (e : OpenPGPEnvironment) (stdin : Bytes) (he : e._home = none) :
    _spawn_gpg os options (some e) stdin
      = .error (.runtimeError "OpenPGPEnvironment has been closed") := by
  simp [_spawn_gpg, childEnvOf, OpenPGPEnvironment.home, he, Bind.bind, Except.bind]

/-- If computing the child environment raises, `_spawn_gpg` propagates that
exception for every oracle. -/
theorem spawn_gpg_env_error (os : OS) (options : List String)
    (env_instance : Option OpenPGPEnvironment) (stdin : Bytes) (err : GematoError)
    (h : childEnvOf env_instance = .error err) :
    _spawn_gpg os options env_instance stdin = .error err := by
  unfold _spawn_gpg
  rw [h]
  simp [Bind.bind, Except.bind]

/-- The folded `onerror` handler raises nothing exactly when every failure
reported by `rmtree` is an `OSError` with `errno == ENOENT`. -/
theorem rmtreeErrorHandler_none_iff (excs : List PyExc) :
    rmtreeErrorHandler excs = none ↔ ∀ exc ∈ excs, exc = PyExc.osError ENOENT := by
  induction excs with
  | nil => simp [rmtreeErrorHandler]
  | cons exc rest ih =>
    cases exc with
    | osError errno =>
      by_cases he : errno ≠ ENOENT
      · simp [rmtreeErrorHandler, he]
      · push_neg at he
        subst he
        simp [rmtreeErrorHandler, ih]
    | otherExc m => simp [rmtreeErrorHandler]

/-! ### Claim theorems -/

/-- C1: `_spawn_gpg` tries the candidate executables in preference order
(`gpg2` then `gpg` by default): an `ENOENT` launch failure moves on to the
next candidate; if every candidate fails with `ENOENT`,
`OpenPGPNoImplementation` is raised; a launch failure with any other errno
is propagated unchanged without trying further candidates. -/
theorem spawn_gpg_candidate_preference (os : OS) (options : List String) (stdin : Bytes) :
    (∀ e, os.popen ("gpg2" :: "--batch" :: options) none = .error e → e ≠ ENOENT →
      _spawn_gpg os options none stdin = .error (.osError e)) ∧
    (os.popen ("gpg2" :: "--batch" :: options) none = .error ENOENT →
      (∀ p, os.popen ("gpg" :: "--batch" :: options) none = .ok p →
        _spawn_gpg os options none stdin = .ok (none, p.communicate stdin)) ∧
      (∀ e, os.popen ("gpg" :: "--batch" :: options) none = .error e → e ≠ ENOENT →
        _spawn_gpg os options none stdin = .error (.osError e)) ∧
      (os.popen ("gpg" :: "--batch" :: options) none = .error ENOENT →
        _spawn_gpg os options none stdin = .error .openPGPNoImplementation)) := by
  have hspawn := spawn_gpg_eq os options none stdin none rfl
  refine ⟨?_, ?_⟩
  · intro e he hne
    rw [hspawn]
    simp [implCandidates, tryImpls, he, hne]
  · intro h2
    refine ⟨?_, ?_, ?_⟩
    · intro p hp
      rw [hspawn]
      simp [implCandidates, tryImpls, h2, hp]
    · intro e he hne
      rw [hspawn]
      simp [implCandidates, tryImpls, h2, he, hne]
    · intro h3
      rw [hspawn]
      simp [implCandidates, tryImpls, h2, h3]

/-- C1 witness: on an oracle with every executable missing the invoker
raises `OpenPGPNoImplementation`; on one where launching `gpg2` fails with
`EACCES` that errno propagates unchanged; on one where only `gpg` exists
the invoker falls through to it. -/
theorem spawn_gpg_candidate_preference_witness :
    _spawn_gpg osAllMissing [] none (encodeUtf8 "") = .error .openPGPNoImplementation ∧
    _spawn_gpg osFirstDenied [] none (encodeUtf8 "") = .error (.osError EACCES) ∧
    _spawn_gpg (osOnlyGpg 0 "ok" "") [] none (encodeUtf8 "")
      = .ok (none, 0, ⟨"ok"⟩, ⟨""⟩) := by
  refine ⟨?_, ?_, ?_⟩
  · exact ((spawn_gpg_candidate_preference osAllMissing [] (encodeUtf8 "")).2 rfl).2.2 rfl
  · exact (spawn_gpg_candidate_preference osFirstDenied [] (encodeUtf8 "")).1 EACCES rfl
      (by decide)
  · exact ((spawn_gpg_candidate_preference (osOnlyGpg 0 "ok" "") [] (encodeUtf8 "")).2
      rfl).1 (procConst 0 "ok" "") rfl

/-- C2: once the child has run, `verify_file` raises
`OpenPGPVerificationFailure` carrying the decoded stderr text if and only
if the exit status is non-zero; on zero exit it returns normally. -/
theorem verify_file_exit_status (os : OS) (f : String)
    (env env' : Option OpenPGPEnvironment) (exitst : Int) (out err : Bytes)
    (h : _spawn_gpg os ["--verify"] env (encodeUtf8 f) = .ok (env', exitst, out, err)) :
    verify_file os f env =
      if exitst ≠ 0 then .error (.openPGPVerificationFailure err.decodeUtf8)
      else .ok env' := by
  unfold verify_file
  rw [h]
  by_cases hz : exitst ≠ 0 <;>
    simp [hz, Bind.bind, Except.bind, throw, throwThe, MonadExceptOf.throw,
      Pure.pure, Except.pure]

/-- C2 witness: a child exiting 2 with stderr `BAD` makes `verify_file`
raise `OpenPGPVerificationFailure "BAD"`; a child exiting 0 makes it
return normally. -/
theorem verify_file_exit_status_witness :
    verify_file (osConst 2 "" "BAD") "msg" none
      = .error (.openPGPVerificationFailure "BAD") ∧
    verify_file (osConst 0 "" "") "msg" none = .ok none := by
  constructor
  · exact (verify_file_exit_status (osConst 2 "" "BAD") "msg" none none 2 ⟨""⟩ ⟨"BAD"⟩
      rfl).trans (by simp)
  · exact (verify_file_exit_status (osConst 0 "" "") "msg" none none 0 ⟨""⟩ ⟨""⟩
      rfl).trans (by simp)

/-- C3: the option list passed to the invoker by `clear_sign_file` is the
clear-sign option plus, exactly when a key id is supplied,
`--local-user <keyid>`; a non-zero exit raises `OpenPGPSigningFailure`
carrying the decoded stderr and nothing is written to the output file,
while a zero exit writes the full decoded stdout. -/
theorem clear_sign_file_exit_status (os : OS) (f : String) (keyid : Option String)
    (env env' : Option OpenPGPEnvironment) (exitst : Int) (out err : Bytes)
    (h : _spawn_gpg os
        ("--clearsign" :: (match keyid with
          | none => []
          | some k => ["--local-user", k]))
        env (encodeUtf8 f) = .ok (env', exitst, out, err)) :
    clear_sign_file os f keyid env =
      if exitst ≠ 0 then .error (.openPGPSigningFailure err.decodeUtf8)
      else .ok (env', out.decodeUtf8) := by
  unfold clear_sign_file
  dsimp only
  rw [h]
  by_cases hz : exitst ≠ 0 <;>
    simp [hz, Bind.bind, Except.bind, throw, throwThe, MonadExceptOf.throw,
      Pure.pure, Except.pure]

/-- C3 witness: with a supplied key id and a child exiting 0 with stdout
`SIGNED`, `clear_sign_file` writes `SIGNED`; with exit 1 and stderr
`NOKEY` it raises `OpenPGPSigningFailure "NOKEY"` and produces no
output. -/
theorem clear_sign_file_exit_status_witness :
    clear_sign_file (osConst 0 "SIGNED" "") "text" (some "0xKEY") none
      = .ok (none, "SIGNED") ∧
    clear_sign_file (osConst 1 "" "NOKEY") "text" none none
      = .error (.openPGPSigningFailure "NOKEY") := by
  constructor
  · exact (clear_sign_file_exit_status (osConst 0 "SIGNED" "") "text" (some "0xKEY")
      none none 0 ⟨"SIGNED"⟩ ⟨""⟩ rfl).trans (by simp)
  · exact (clear_sign_file_exit_status (osConst 1 "" "NOKEY") "text" none
      none none 1 ⟨""⟩ ⟨"NOKEY"⟩ rfl).trans (by simp)

/-- C4: after `close()` has completed, reading the `home` property raises
the `OpenPGPEnvironment has been closed` error, and a second `close()` is
a no-op that raises nothing, on every oracle. -/
theorem closed_environment_access (os : CloseOS) (e e' : OpenPGPEnvironment)
    (h : e.close os = (none, e')) :
    e'.home = .error (.runtimeError "OpenPGPEnvironment has been closed") ∧
    ∀ os2 : CloseOS, e'.close os2 = (none, e') := by
  have hh : e'._home = none := by
    unfold OpenPGPEnvironment.close at h
    cases he : e._home with
    | none =>
      rw [he] at h
      dsimp only at h
      injection h with h1 h2
      rw [← h2, he]
    | some home =>
      rw [he] at h
      dsimp only at h
      cases hk : agentKillStep os e._impl home with
      | some err =>
        rw [hk] at h
        dsimp only at h
        injection h with h1 h2
        exact Option.noConfusion h1
      | none =>
        rw [hk] at h
        dsimp only at h
        unfold rmtreePhase at h
        cases hr : rmtreeErrorHandler (os.rmtree home) with
        | some err =>
          rw [hr] at h
          dsimp only at h
          injection h with h1 h2
          exact Option.noConfusion h1
        | none =>
          rw [hr] at h
          dsimp only at h
          injection h with h1 h2
          rw [← h2]
  constructor
  · unfold OpenPGPEnvironment.home
    rw [hh]
  · intro os2
    unfold OpenPGPEnvironment.close
    rw [hh]

/-- C4 witness: closing a fresh environment, the resulting state answers
the closed-environment error for `home` and a second `close` returns it
unchanged without raising. -/
theorem closed_environment_access_witness :
    OpenPGPEnvironment.home ⟨none, none⟩
      = .error (.runtimeError "OpenPGPEnvironment has been closed") ∧
    OpenPGPEnvironment.close (closeOSConst (.ok 0) []) ⟨none, none⟩
      = (none, ⟨none, none⟩) := by
  have h := closed_environment_access (closeOSConst (.ok 0) []) ⟨some "/g", none⟩
    ⟨none, none⟩ rfl
  exact ⟨h.1, h.2 (closeOSConst (.ok 0) [])⟩

/-- C5: during `close()` of a non-closed environment, the agent-kill
command runs only if an implementation was resolved (the outcome is the
`rmtree` phase alone, for every oracle); an `ENOENT` kill failure is
tolerated and any other errno propagates with the state unchanged; the
exit status of a launched kill is ignored; the removal phase tolerates
exactly the all-`ENOENT` failure lists and propagates the first other
error with the state unchanged. -/
theorem close_teardown_tolerance (os : CloseOS) (e : OpenPGPEnvironment) (hpath : String)
    (hh : e._home = some hpath) :
    (e._impl = none → e.close os = rmtreePhase os e hpath) ∧
    (∀ i, e._impl = some i → os.gpgconfKill hpath = .error ENOENT →
      e.close os = rmtreePhase os e hpath) ∧
    (∀ i code, e._impl = some i → os.gpgconfKill hpath = .ok code →
      e.close os = rmtreePhase os e hpath) ∧
    (∀ i errno, e._impl = some i → os.gpgconfKill hpath = .error errno →
      errno ≠ ENOENT → e.close os = (some (.osError errno), e)) ∧
    (rmtreeErrorHandler (os.rmtree hpath) = none ↔
      ∀ exc ∈ os.rmtree hpath, exc = PyExc.osError ENOENT) ∧
    (∀ err, rmtreeErrorHandler (os.rmtree hpath) = some err →
      rmtreePhase os e hpath = (some err, e)) := by
  refine ⟨?_, ?_, ?_, ?_, rmtreeErrorHandler_none_iff _, ?_⟩
  · intro hi
    simp [OpenPGPEnvironment.close, hh, agentKillStep, hi]
  · intro i hi hk
    simp [OpenPGPEnvironment.close, hh, agentKillStep, hi, hk]
  · intro i code hi hk
    simp [OpenPGPEnvironment.close, hh, agentKillStep, hi, hk]
  · intro i errno hi hk hne
    simp [OpenPGPEnvironment.close, hh, agentKillStep, hi, hk, hne]
  · intro err herr
    simp [rmtreePhase, herr]

/-- C5 witness: with a resolved implementation, an `ENOENT` kill failure
plus an `ENOENT` removal race still closes the environment; an `EACCES`
kill failure propagates leaving the state unchanged. -/
theorem close_teardown_tolerance_witness :
    OpenPGPEnvironment.close (closeOSConst (.error ENOENT) [.osError ENOENT])
        ⟨some "/g", some "gpg"⟩
      = (none, ⟨none, some "gpg"⟩) ∧
    OpenPGPEnvironment.close (closeOSConst (.error EACCES) [])
        ⟨some "/g", some "gpg"⟩
      = (some (.osError EACCES), ⟨some "/g", some "gpg"⟩) := by
  constructor
  · exact ((close_teardown_tolerance (closeOSConst (.error ENOENT) [.osError ENOENT])
      ⟨some "/g", some "gpg"⟩ "/g" rfl).2.1 "gpg" rfl rfl).trans rfl
  · exact (close_teardown_tolerance (closeOSConst (.error EACCES) [])
      ⟨some "/g", some "gpg"⟩ "/g" rfl).2.2.2.1 "gpg" EACCES rfl rfl (by decide)

/-- C6: the resolved-implementation field starts unset; a first successful
invocation sets it to the first candidate that launched (all earlier
candidates having failed with `ENOENT`); once set, later invocations
consult only that cached implementation, skipping the candidate list. -/
theorem impl_cache_lifecycle :
    (∀ tmpdir, (OpenPGPEnvironment.init tmpdir)._impl = none) ∧
    (∀ (os : OS) (options : List String) (e : OpenPGPEnvironment) (stdin : Bytes)
        (env' : Option OpenPGPEnvironment) (res : Int × Bytes × Bytes),
      e._impl = none →
      _spawn_gpg os options (some e) stdin = .ok (env', res) →
      ∃ impl p pre post hd,
        e._home = some hd ∧
        env' = some { e with _impl := some impl } ∧
        ["gpg2", "gpg"] = pre ++ impl :: post ∧
        (∀ c ∈ pre,
          os.popen (c :: "--batch" :: options) (some [("GNUPGHOME", hd)])
            = .error ENOENT) ∧
        os.popen (impl :: "--batch" :: options) (some [("GNUPGHOME", hd)]) = .ok p ∧
        res = p.communicate stdin) ∧
    (∀ (e : OpenPGPEnvironment) (impl : String),
      e._impl = some impl → implCandidates (some e) = [impl]) ∧
    (∀ (os : OS) (options : List String) (e : OpenPGPEnvironment) (stdin : Bytes)
        (impl hd : String), e._impl = some impl → e._home = some hd →
      _spawn_gpg os options (some e) stdin =
        match os.popen (impl :: "--batch" :: options) (some [("GNUPGHOME", hd)]) with
        | .ok p => .ok (some e, p.communicate stdin)
        | .error errno =>
          if errno ≠ ENOENT then .error (.osError errno)
          else .error .openPGPNoImplementation) := by
  refine ⟨fun _ => rfl, ?_, ?_, ?_⟩
  · intro os options e stdin env' res hi hok
    cases hhome : e._home with
    | none =>
      rw [spawn_gpg_closed os options e stdin hhome] at hok
      exact absurd hok (by simp)
    | some hd =>
      have henv : childEnvOf (some e) = .ok (some [("GNUPGHOME", hd)]) := by
        simp [childEnvOf, OpenPGPEnvironment.home, hhome, Bind.bind, Except.bind,
          Pure.pure, Except.pure]
      rw [spawn_gpg_eq os options (some e) stdin _ henv] at hok
      have hcand : implCandidates (some e) = ["gpg2", "gpg"] := by
        simp [implCandidates, hi]
      rw [hcand] at hok
      cases htry : tryImpls os options (some [("GNUPGHOME", hd)]) ["gpg2", "gpg"] with
      | error err =>
        rw [htry] at hok
        exact absurd hok (by simp)
      | ok r =>
        obtain ⟨impl, p⟩ := r
        rw [htry] at hok
        dsimp only [Option.map] at hok
        injection hok with hok'
        rw [Prod.mk.injEq] at hok'
        obtain ⟨henv', hres⟩ := hok'
        obtain ⟨pre, post, hsplit, hpre, himpl⟩ :=
          tryImpls_ok_first os options (some [("GNUPGHOME", hd)]) _ impl p htry
        refine ⟨impl, p, pre, post, hd, rfl, ?_, hsplit, hpre, himpl, hres.symm⟩
        rw [← henv', hhome]
  · intro e impl hi
    simp [implCandidates, hi]
  · intro os options e stdin impl hd hi hhome
    have henv : childEnvOf (some e) = .ok (some [("GNUPGHOME", hd)]) := by
      simp [childEnvOf, OpenPGPEnvironment.home, hhome, Bind.bind, Except.bind,
        Pure.pure, Except.pure]
    rw [spawn_gpg_eq os options (some e) stdin _ henv]
    have hcand : implCandidates (some e) = [impl] := by simp [implCandidates, hi]
    rw [hcand]
    have he : { e with _impl := some impl } = e := by
      cases e with
      | mk h i =>
        dsimp only at hi
        subst hi
        rfl
    cases hp : os.popen (impl :: "--batch" :: options) (some [("GNUPGHOME", hd)]) with
    | ok p => simp [tryImpls, hp, he]
    | error errno =>
      by_cases hne : errno ≠ ENOENT
      · simp [tryImpls, hp, hne]
      · push_neg at hne
        subst hne
        simp [tryImpls, hp]

/-- C6 witness: a fresh environment has no resolved implementation; an
environment that cached `gpg` has `[gpg]` as its only candidate, and an
invocation against it tries exactly that candidate. -/
theorem impl_cache_lifecycle_witness :
    (OpenPGPEnvironment.init "/g")._impl = none ∧
    implCandidates (some ⟨some "/g", some "gpg"⟩) = ["gpg"] ∧
    _spawn_gpg (osConst 0 "" "") [] (some ⟨some "/g", some "gpg"⟩) (encodeUtf8 "")
      = .ok (some ⟨some "/g", some "gpg"⟩, 0, ⟨""⟩, ⟨""⟩) := by
  refine ⟨impl_cache_lifecycle.1 "/g",
    impl_cache_lifecycle.2.2.1 ⟨some "/g", some "gpg"⟩ "gpg" rfl, ?_⟩
  exact (impl_cache_lifecycle.2.2.2 (osConst 0 "" "") [] ⟨some "/g", some "gpg"⟩
    (encodeUtf8 "") "gpg" "/g" rfl rfl).trans rfl

/-- C7: the invoker's result depends on the oracle only at command lines
`impl :: "--batch" :: options` for candidate implementations `impl`, all
invoked with the same child environment; that child environment is absent
when no environment is supplied and is exactly
`{GNUPGHOME: private directory}` when one is. -/
theorem spawn_command_line :
    (∀ (os1 os2 : OS) (options : List String)
        (env_instance : Option OpenPGPEnvironment) (stdin : Bytes),
      (∀ impl ∈ implCandidates env_instance, ∀ envArg,
        childEnvOf env_instance = .ok envArg →
        os1.popen (impl :: "--batch" :: options) envArg
          = os2.popen (impl :: "--batch" :: options) envArg) →
      _spawn_gpg os1 options env_instance stdin
        = _spawn_gpg os2 options env_instance stdin) ∧
    childEnvOf none = .ok none ∧
    (∀ (e : OpenPGPEnvironment) (hd : String), e._home = some hd →
      childEnvOf (some e) = .ok (some [("GNUPGHOME", hd)])) := by
  refine ⟨?_, rfl, ?_⟩
  · intro os1 os2 options env_instance stdin hagree
    cases henv : childEnvOf env_instance with
    | error err =>
      rw [spawn_gpg_env_error os1 options env_instance stdin err henv,
        spawn_gpg_env_error os2 options env_instance stdin err henv]
    | ok envArg =>
      rw [spawn_gpg_eq os1 options env_instance stdin envArg henv,
        spawn_gpg_eq os2 options env_instance stdin envArg henv,
        tryImpls_congr os1 os2 options envArg (implCandidates env_instance)
          (fun impl hmem => hagree impl hmem envArg henv)]
  · intro e hd hhome
    simp [childEnvOf, OpenPGPEnvironment.home, hhome, Bind.bind, Except.bind,
      Pure.pure, Except.pure]

/-- C7 witness: two oracles that agree on the candidate command lines but
differ elsewhere give identical invoker results, and a live environment
with home `/g` yields the child environment `{GNUPGHOME: /g}`. -/
theorem spawn_command_line_witness :
    _spawn_gpg osAgreeA [] none (encodeUtf8 "")
      = _spawn_gpg osAgreeB [] none (encodeUtf8 "") ∧
    childEnvOf (some (OpenPGPEnvironment.init "/g"))
      = .ok (some [("GNUPGHOME", "/g")]) := by
  constructor
  · refine spawn_command_line.1 osAgreeA osAgreeB [] none (encodeUtf8 "") ?_
    intro impl hmem envArg henv
    simp only [implCandidates] at hmem
    rcases List.mem_cons.mp hmem with rfl | hmem
    · rfl
    · rcases List.mem_cons.mp hmem with rfl | hmem
      · rfl
      · exact absurd hmem (by simp)
  · exact spawn_command_line.2.2 (OpenPGPEnvironment.init "/g") "/g" rfl

/-- C8: the module keeps no process-wide mutable state: an invocation
without an environment touches no environment at all, an invocation with
one changes at most its resolved-implementation field, and `close` changes
at most the home field of the environment it was called on.  (All
operations are pure functions of the oracle and their explicit
arguments.) -/
theorem no_global_state :
    (∀ (os : OS) (options : List String) (stdin : Bytes)
        (env' : Option OpenPGPEnvironment) (res : Int × Bytes × Bytes),
      _spawn_gpg os options none stdin = .ok (env', res) → env' = none) ∧
    (∀ (os : OS) (options : List String) (e : OpenPGPEnvironment) (stdin : Bytes)
        (env' : Option OpenPGPEnvironment) (res : Int × Bytes × Bytes),
      _spawn_gpg os options (some e) stdin = .ok (env', res) →
      ∃ impl, env' = some { e with _impl := some impl }) ∧
    (∀ (os : CloseOS) (e : OpenPGPEnvironment) (r : Option GematoError)
        (e' : OpenPGPEnvironment), e.close os = (r, e') →
      e'._impl = e._impl ∧ (e' = e ∨ e' = { e with _home := none })) := by
  refine ⟨?_, ?_, ?_⟩
  · intro os options stdin env' res hok
    rw [spawn_gpg_eq os options none stdin none rfl] at hok
    cases htry : tryImpls os options none (implCandidates none) with
    | error err =>
      rw [htry] at hok
      exact absurd hok (by simp)
    | ok r' =>
      obtain ⟨impl, p⟩ := r'
      rw [htry] at hok
      dsimp only [Option.map] at hok
      injection hok with hok'
      rw [Prod.mk.injEq] at hok'
      exact hok'.1.symm
  · intro os options e stdin env' res hok
    cases hhome : e._home with
    | none =>
      rw [spawn_gpg_closed os options e stdin hhome] at hok
      exact absurd hok (by simp)
    | some hd =>
      have henv : childEnvOf (some e) = .ok (some [("GNUPGHOME", hd)]) := by
        simp [childEnvOf, OpenPGPEnvironment.home, hhome, Bind.bind, Except.bind,
          Pure.pure, Except.pure]
      rw [spawn_gpg_eq os options (some e) stdin _ henv] at hok
      cases htry : tryImpls os options (some [("GNUPGHOME", hd)])
          (implCandidates (some e)) with
      | error err =>
        rw [htry] at hok
        exact absurd hok (by simp)
      | ok r' =>
        obtain ⟨impl, p⟩ := r'
        rw [htry] at hok
        dsimp only [Option.map] at hok
        injection hok with hok'
        rw [Prod.mk.injEq] at hok'
        refine ⟨impl, ?_⟩
        rw [← hok'.1, hhome]
  · intro os e r e' h
    unfold OpenPGPEnvironment.close at h
    cases hhome : e._home with
    | none =>
      rw [hhome] at h
      dsimp only at h
      injection h with ha hb
      subst hb
      exact ⟨rfl, Or.inl rfl⟩
    | some home =>
      rw [hhome] at h
      dsimp only at h
      cases hk : agentKillStep os e._impl home with
      | some err =>
        rw [hk] at h
        dsimp only at h
        injection h with ha hb
        subst hb
        exact ⟨rfl, Or.inl rfl⟩
      | none =>
        rw [hk] at h
        dsimp only at h
        unfold rmtreePhase at h
        cases hr : rmtreeErrorHandler (os.rmtree home) with
        | some err =>
          rw [hr] at h
          dsimp only at h
          injection h with ha hb
          subst hb
          exact ⟨rfl, Or.inl rfl⟩
        | none =>
          rw [hr] at h
          dsimp only at h
          injection h with ha hb
          subst hb
          exact ⟨rfl, Or.inr rfl⟩

/-- C8 witness: a concrete environment-less invocation yields no
environment, and a concrete invocation against a fresh environment
changes only its resolved-implementation field. -/
theorem no_global_state_witness :
    (none : Option OpenPGPEnvironment) = none ∧
    ∃ impl, (some (⟨some "/g", some "gpg2"⟩ : OpenPGPEnvironment))
      = some { OpenPGPEnvironment.init "/g" with _impl := some impl } := by
  constructor
  · exact no_global_state.1 (osConst 0 "" "") [] (encodeUtf8 "") none
      (0, ⟨""⟩, ⟨""⟩) rfl
  · exact no_global_state.2.1 (osConst 0 "" "") [] (OpenPGPEnvironment.init "/g")
      (encodeUtf8 "") (some ⟨some "/g", some "gpg2"⟩) (0, ⟨""⟩, ⟨""⟩) rfl

/-- C9: on an already-closed environment every operation that takes it
raises the closed-environment `RuntimeError`, uniformly in the oracle —
the invoker reads the `home` property before launching any candidate, so
no child process is consulted. -/
theorem closed_env_rejected (e : OpenPGPEnvironment) (he : e._home = none) :
    (∀ (os : OS) (options : List String) (stdin : Bytes),
      _spawn_gpg os options (some e) stdin
        = .error (.runtimeError "OpenPGPEnvironment has been closed")) ∧
    (∀ (os : OS) (f : String),
      verify_file os f (some e)
        = .error (.runtimeError "OpenPGPEnvironment has been closed")) ∧
    (∀ (os : OS) (f : String) (keyid : Option String),
      clear_sign_file os f keyid (some e)
        = .error (.runtimeError "OpenPGPEnvironment has been closed")) ∧
    (∀ (os : OS) (keyfile : Bytes),
      e.import_key os keyfile
        = .error (.runtimeError "OpenPGPEnvironment has been closed")) := by
  have hs : ∀ (os : OS) (options : List String) (stdin : Bytes),
      _spawn_gpg os options (some e) stdin
        = .error (.runtimeError "OpenPGPEnvironment has been closed") :=
    fun os options stdin => spawn_gpg_closed os options e stdin he
  refine ⟨hs, ?_, ?_, ?_⟩
  · intro os f
    unfold verify_file
    rw [hs os ["--verify"] (encodeUtf8 f)]
    simp [Bind.bind, Except.bind]
  · intro os f keyid
    unfold clear_sign_file
    dsimp only
    rw [hs os _ (encodeUtf8 f)]
    simp [Bind.bind, Except.bind]
  · intro os keyfile
    unfold OpenPGPEnvironment.import_key
    rw [hs os ["--import"] keyfile]
    simp [Bind.bind, Except.bind]

/-- C9 witness: on a closed environment, verification and key import raise
the closed-environment error even though the oracle would launch any
executable successfully. -/
theorem closed_env_rejected_witness :
    verify_file (osConst 0 "" "") "x" (some ⟨none, none⟩)
      = .error (.runtimeError "OpenPGPEnvironment has been closed") ∧
    OpenPGPEnvironment.import_key (osConst 0 "" "") ⟨none, none⟩ (encodeUtf8 "k")
      = .error (.runtimeError "OpenPGPEnvironment has been closed") :=
  ⟨(closed_env_rejected ⟨none, none⟩ rfl).2.1 (osConst 0 "" "") "x",
    (closed_env_rejected ⟨none, none⟩ rfl).2.2.2 (osConst 0 "" "") (encodeUtf8 "k")⟩

/-- C10: `close` marks the environment closed only after the removal step
returns without a propagated error; on a propagated error the state is
returned unchanged, so a later `close` performs the same full teardown. -/
theorem close_error_preserves_state (os : CloseOS) (e : OpenPGPEnvironment) :
    (∀ err e', e.close os = (some err, e') → e' = e) ∧
    (∀ e', e.close os = (none, e') → e'._home = none) ∧
    (∀ hpath, e._home = some hpath → ∀ e', e.close os = (none, e') →
      rmtreeErrorHandler (os.rmtree hpath) = none) ∧
    (∀ err e', e.close os = (some err, e') →
      ∀ os2 : CloseOS, e'.close os2 = e.close os2) := by
  have h1 : ∀ err e', e.close os = (some err, e') → e' = e := by
    intro err e' h
    unfold OpenPGPEnvironment.close at h
    cases hhome : e._home with
    | none =>
      rw [hhome] at h
      dsimp only at h
      injection h with ha hb
      exact Option.noConfusion ha
    | some home =>
      rw [hhome] at h
      dsimp only at h
      cases hk : agentKillStep os e._impl home with
      | some err2 =>
        rw [hk] at h
        dsimp only at h
        injection h with ha hb
        exact hb.symm
      | none =>
        rw [hk] at h
        dsimp only at h
        unfold rmtreePhase at h
        cases hr : rmtreeErrorHandler (os.rmtree home) with
        | some err2 =>
          rw [hr] at h
          dsimp only at h
          injection h with ha hb
          exact hb.symm
        | none =>
          rw [hr] at h
          dsimp only at h
          injection h with ha hb
          exact Option.noConfusion ha
  refine ⟨h1, ?_, ?_, fun err e' h os2 => by rw [h1 err e' h]⟩
  · intro e' h
    unfold OpenPGPEnvironment.close at h
    cases hhome : e._home with
    | none =>
      rw [hhome] at h
      dsimp only at h
      injection h with ha hb
      rw [← hb]
      exact hhome
    | some home =>
      rw [hhome] at h
      dsimp only at h
      cases hk : agentKillStep os e._impl home with
      | some err =>
        rw [hk] at h
        dsimp only at h
        injection h with ha hb
        exact Option.noConfusion ha
      | none =>
        rw [hk] at h
        dsimp only at h
        unfold rmtreePhase at h
        cases hr : rmtreeErrorHandler (os.rmtree home) with
        | some err =>
          rw [hr] at h
          dsimp only at h
          injection h with ha hb
          exact Option.noConfusion ha
        | none =>
          rw [hr] at h
          dsimp only at h
          injection h with ha hb
          rw [← hb]
  · intro hpath hp e' h
    unfold OpenPGPEnvironment.close at h
    rw [hp] at h
    dsimp only at h
    cases hk : agentKillStep os e._impl hpath with
    | some err =>
      rw [hk] at h
      dsimp only at h
      injection h with ha hb
      exact Option.noConfusion ha
    | none =>
      rw [hk] at h
      dsimp only at h
      unfold rmtreePhase at h
      cases hr : rmtreeErrorHandler (os.rmtree hpath) with
      | some err =>
        rw [hr] at h
        dsimp only at h
        exact absurd h (by simp)
      | none => rfl

/-- C10 witness: a propagated removal error leaves a concrete environment
unchanged, and a clean teardown of the same environment ends with the home
field unset. -/
theorem close_error_preserves_state_witness :
    ((⟨some "/g", none⟩ : OpenPGPEnvironment) = ⟨some "/g", none⟩) ∧
    (⟨none, none⟩ : OpenPGPEnvironment)._home = none := by
  constructor
  · exact (close_error_preserves_state (closeOSConst (.ok 0) [.osError EACCES])
      ⟨some "/g", none⟩).1 (.osError EACCES) ⟨some "/g", none⟩ rfl
  · exact (close_error_preserves_state (closeOSConst (.ok 0) [])
      ⟨some "/g", none⟩).2.1 ⟨none, none⟩ rfl

end Gemato
